import Mathlib

/-!
Shallow embedding of `src/nanobot/channels/webchat.py`: the `ChatStore`
record store, its JSON snapshot persistence, the SSE broadcast registry,
and the `WebChatChannel` handlers (`post_message`, `create_chat` route,
`send`). Machine-level details are modelled as follows: the snapshot file
is a `FileV` (absent, unparseable text, or a parsed JSON value `JsonV`);
Python's insertion-ordered `dict` is an association list with
dict-assignment semantics (`dinsert`); Python's stable
`sorted(..., key=created_at, reverse=True)` is a stable insertion sort
under the lexicographic code-point order that Python uses on strings;
exceptions are `Except` values. `_load` is embedded twice: `loadStoreRaw`
is the field-level-faithful model for arbitrary files (no type
validation, exactly as the source's loop behaves), while `loadStore`
reads records back at `Msg` granularity and is used for the save/load
round trip, where the two models agree because `_save` only ever writes
string fields and well-formed histories.
-/

/-- Lexicographic code-point comparison on character lists, the order
Python uses when `sorted` compares `created_at` strings. -/
def charsLe : List Char → List Char → Bool
  | [], _ => true
  | _ :: _, [] => false
  | a :: as, b :: bs => if a < b then true else if a = b then charsLe as bs else false

/-- Python string `<=` (lexicographic on code points). -/
def strLe (a b : String) : Bool := charsLe a.data b.data

/-- A chat message as stored in a `ChatRecord.history`: the dict
`{"role": role, "content": content}` built by `append_message`. -/
structure Msg where
  role : String
  content : String
  deriving DecidableEq, Repr

/-- `ChatRecord` dataclass: `id`, `title`, `created_at`, `history`. -/
structure ChatRecord where
  id : String
  title : String
  created_at : String
  history : List Msg
  deriving DecidableEq, Repr

/-- A JSON value, restricted to the shapes the store reads and writes:
strings, arrays, and objects (field lists with distinct keys). -/
inductive JsonV where
  | str : String → JsonV
  | arr : List JsonV → JsonV
  | obj : List (String × JsonV) → JsonV

/-- The snapshot file `~/.nanobot/workspace/web_chats.json` as `_load`
sees it: absent, present but unparseable (`json.loads` raises), or
present and parsed to a JSON value. -/
inductive FileV where
  | absent : FileV
  | present : Option JsonV → FileV

/-- The `ChatStore` state: the in-memory dict `_chats` (as an
insertion-ordered association list keyed by id) together with the
persisted snapshot file. -/
structure ChatStore where
  chats : List (String × ChatRecord)
  disk : FileV

/-- Python dict assignment `d[k] = v`: overwrite in place if the key is
present (keeping its position), otherwise append at the end. -/
def dinsert (m : List (String × ChatRecord)) (k : String) (v : ChatRecord) :
    List (String × ChatRecord) :=
  if (m.lookup k).isSome then
    m.map (fun p => if p.1 = k then (k, v) else p)
  else
    m ++ [(k, v)]

/-- The sort key relation of `sorted(..., key=lambda x: x.created_at,
reverse=True)`: `a` may come before `b` when `b.created_at <= a.created_at`. -/
def createdDesc (a b : ChatRecord) : Prop := strLe b.created_at a.created_at = true

instance : DecidableRel createdDesc := fun a b =>
  inferInstanceAs (Decidable (strLe b.created_at a.created_at = true))

/-- The records of the store sorted newest-first, as both `_save` and
`list_chats` compute them; `List.insertionSort` is stable, matching
Python's stable `sorted`. -/
def sortedRecords (s : ChatStore) : List ChatRecord :=
  List.insertionSort createdDesc (s.chats.map Prod.snd)

/-- JSON rendering of one history entry, as `_save` serializes it. -/
def msgJson (m : Msg) : JsonV :=
  JsonV.obj [("role", JsonV.str m.role), ("content", JsonV.str m.content)]

/-- JSON rendering of one chat record inside the snapshot payload. -/
def itemJson (c : ChatRecord) : JsonV :=
  JsonV.obj [("id", JsonV.str c.id), ("title", JsonV.str c.title),
    ("created_at", JsonV.str c.created_at),
    ("history", JsonV.arr (c.history.map msgJson))]

/-- The full snapshot payload `{"chats": [...]}` written by `_save`,
sorted by `created_at` descending at write time. -/
def snapshotJson (s : ChatStore) : JsonV :=
  JsonV.obj [("chats", JsonV.arr ((sortedRecords s).map itemJson))]

/-- `ChatStore._save`: rewrite the snapshot file from the in-memory state. -/
def _save (s : ChatStore) : ChatStore :=
  { s with disk := FileV.present (some (snapshotJson s)) }

/-- A chat summary `{id, title, created_at}` as returned by `list_chats`
and `create_chat`. -/
structure Summary where
  id : String
  title : String
  created_at : String
  deriving DecidableEq, Repr

/-- `ChatStore.list_chats`: summaries of all chats, newest first. -/
def list_chats (s : ChatStore) : List Summary :=
  (sortedRecords s).map (fun t => ⟨t.id, t.title, t.created_at⟩)

/-- `ChatStore.create_chat`: insert a fresh empty-history record and
persist. The generated `uuid.uuid4().hex[:12]` id and the
`_utc_now()` timestamp are inputs of the embedding. -/
def create_chat (s : ChatStore) (chat_id title now : String) :
    ChatStore × Summary :=
  let chat : ChatRecord := ⟨chat_id, title, now, []⟩
  let s' := _save { s with chats := dinsert s.chats chat_id chat }
  (s', ⟨chat.id, chat.title, chat.created_at⟩)

/-- `ChatStore.get_messages`: a copy of the history, or `KeyError` for an
unknown id (the error payload is the offending id). -/
def get_messages (s : ChatStore) (chat_id : String) : Except String (List Msg) :=
  match s.chats.lookup chat_id with
  | none => Except.error chat_id
  | some chat => Except.ok chat.history

/-- `ChatStore.append_message`: append `{"role": role, "content": content}`
to the chat's history and persist, or `KeyError` for an unknown id. -/
def append_message (s : ChatStore) (chat_id role content : String) :
    Except String ChatStore :=
  match s.chats.lookup chat_id with
  | none => Except.error chat_id
  | some chat =>
    Except.ok (_save { s with
      chats := dinsert s.chats chat_id
        { chat with history := chat.history ++ [⟨role, content⟩] } })

/-- Object field lookup, `obj[k]` / `obj.get(k)`. -/
def jlook (fields : List (String × JsonV)) (k : String) : Option JsonV :=
  fields.lookup k

/-- Read one history entry back at `Msg` granularity (the shape `_save`
always writes); used by the round-trip model `loadStore` only — the
source itself does not validate history entries (see `parseItemRaw`). -/
def parseMsg (j : JsonV) : Option Msg :=
  match j with
  | JsonV.obj fs =>
    match jlook fs "role", jlook fs "content" with
    | some (JsonV.str r), some (JsonV.str c) => some ⟨r, c⟩
    | _, _ => none
  | _ => none

/-- Read a snapshot history array at `Msg` granularity (round-trip model
only; the source stores any history value as-is). -/
def parseMsgs (j : JsonV) : Option (List Msg) :=
  match j with
  | JsonV.arr l => l.mapM parseMsg
  | _ => none

/-- Read one snapshot item back as a typed `ChatRecord`: `item["id"]`,
`item["title"]`, `item["created_at"]` must exist (else `KeyError`),
`item.get("history", [])` defaults to empty. This typed reader serves
the save/load round trip, where `_save` guarantees string fields and
well-formed histories; `parseItemRaw` below models the loop body for
arbitrary files. -/
def parseItem (j : JsonV) : Option ChatRecord :=
  match j with
  | JsonV.obj fs =>
    match jlook fs "id", jlook fs "title", jlook fs "created_at" with
    | some (JsonV.str i), some (JsonV.str t), some (JsonV.str ca) =>
      match jlook fs "history" with
      | none => some ⟨i, t, ca, []⟩
      | some h =>
        match parseMsgs h with
        | some ms => some ⟨i, t, ca, ms⟩
        | none => none
    | _, _, _ => none
  | _ => none

/-- Iterating `raw.get("chats", [])`: a JSON array yields its items; an
empty string or empty object iterates to nothing; any other value makes
the first loop iteration raise (`none`). -/
def chatsItems (j : JsonV) : Option (List JsonV) :=
  match j with
  | JsonV.arr l => some l
  | JsonV.str s => if s.isEmpty then some [] else none
  | JsonV.obj fs => if fs.isEmpty then some [] else none

/-- `_load`'s item loop: insert each parsed record into the dict; the
first raising item aborts the loop, keeping the records inserted so far
(the caught exception is logged — the `Bool` records whether it was). -/
def loadLoop : List JsonV → List (String × ChatRecord) →
    List (String × ChatRecord) × Bool
  | [], acc => (acc, false)
  | i :: rest, acc =>
    match parseItem i with
    | some c => loadLoop rest (dinsert acc c.id c)
    | none => (acc, true)

/-- `ChatStore._load` at construction, at `Msg` granularity (the
round-trip model; see `loadStoreRaw` for arbitrary files): populate a
fresh store from the snapshot file. Missing file: empty store, no log.
Unparseable text or a non-object root: the raised exception is caught
and logged, store left as loaded so far (empty). Returns the store and
whether an error was logged. -/
def loadStore (f : FileV) : ChatStore × Bool :=
  match f with
  | FileV.absent => (⟨[], f⟩, false)
  | FileV.present none => (⟨[], f⟩, true)
  | FileV.present (some raw) =>
    match raw with
    | JsonV.obj fields =>
      match chatsItems ((jlook fields "chats").getD (JsonV.arr [])) with
      | some items =>
        let (cs, logged) := loadLoop items []
        (⟨cs, f⟩, logged)
      | none => (⟨[], f⟩, true)
    | _ => (⟨[], f⟩, true)

/-- A chat record as `_load`'s loop actually builds it: the dataclass
constructor performs no type validation, so `title`, `created_at` and
`history` hold whatever JSON values the file supplied; only `id` must be
a (hashable) string for the dict insert to succeed. -/
structure RawChatRecord where
  id : String
  title : JsonV
  created_at : JsonV
  history : JsonV

/-- Python dict assignment `d[k] = v` for the raw load model. -/
def dinsertRaw (m : List (String × RawChatRecord)) (k : String)
    (v : RawChatRecord) : List (String × RawChatRecord) :=
  if (m.lookup k).isSome then
    m.map (fun p => if p.1 = k then (k, v) else p)
  else
    m ++ [(k, v)]

/-- `_load`'s loop body at field-level fidelity: the item must be an
object (else `TypeError`) with `"id"`, `"title"` and `"created_at"`
present (else `KeyError`) and a string id (an array or object id is
unhashable, so the dict insert raises `TypeError`); every field value is
stored as-is with no type check, and `item.get("history", [])` defaults
to an empty array. `none` is the raising case. -/
def parseItemRaw (j : JsonV) : Option RawChatRecord :=
  match j with
  | JsonV.obj fs =>
    match jlook fs "id", jlook fs "title", jlook fs "created_at" with
    | some (JsonV.str i), some t, some ca =>
      some ⟨i, t, ca, (jlook fs "history").getD (JsonV.arr [])⟩
    | _, _, _ => none
  | _ => none

/-- `_load`'s item loop over raw records: insert each successfully built
record and continue; the first raising item aborts the loop, keeping the
records inserted so far (the caught exception is logged — the `Bool`
records whether it was). -/
def loadLoopRaw : List JsonV → List (String × RawChatRecord) →
    List (String × RawChatRecord) × Bool
  | [], acc => (acc, false)
  | i :: rest, acc =>
    match parseItemRaw i with
    | some c => loadLoopRaw rest (dinsertRaw acc c.id c)
    | none => (acc, true)

/-- `ChatStore._load` at field-level fidelity, for arbitrary snapshot
files: like `loadStore` but with no validation of `title`, `created_at`
or `history`, exactly as the source's loop behaves. Returns the loaded
`_chats` entries and whether an error was logged. -/
def loadStoreRaw (f : FileV) : List (String × RawChatRecord) × Bool :=
  match f with
  | FileV.absent => ([], false)
  | FileV.present none => ([], true)
  | FileV.present (some raw) =>
    match raw with
    | JsonV.obj fields =>
      match chatsItems ((jlook fields "chats").getD (JsonV.arr [])) with
      | some items => loadLoopRaw items []
      | none => ([], true)
    | _ => ([], true)

/-- Python's `str.isspace()` on a single character: true exactly for
U+0009..U+000D, U+001C..U+001F, space, U+0085, U+00A0, U+1680,
U+2000..U+200A, U+2028, U+2029, U+202F, U+205F and U+3000 — the set
`str.strip()` removes. -/
def pyIsSpace (c : Char) : Bool :=
  let n := c.toNat
  decide (9 ≤ n ∧ n ≤ 13) || decide (28 ≤ n ∧ n ≤ 31) || decide (n = 32) ||
  decide (n = 0x85) || decide (n = 0xA0) || decide (n = 0x1680) ||
  decide (0x2000 ≤ n ∧ n ≤ 0x200A) || decide (n = 0x2028) ||
  decide (n = 0x2029) || decide (n = 0x202F) || decide (n = 0x205F) ||
  decide (n = 0x3000)

/-- Python's `str.strip()`: drop leading and trailing `str.isspace()`
characters. -/
def pyStrip (s : String) : String :=
  ⟨((s.data.dropWhile pyIsSpace).reverse.dropWhile pyIsSpace).reverse⟩

/-- An HTTP response produced by the Flask route handlers. -/
inductive HttpResp where
  | ok200 : JsonV → HttpResp
  | created201 : Summary → HttpResp
  | accepted202 : HttpResp
  | badRequest400 : String → HttpResp
  | notFound404 : String → HttpResp
  | internal500 : String → HttpResp

/-- The serialized SSE payload `json.dumps({"chat_id", "role", "content"})`
built by `_notify_sse`, modelled at JSON-value level. -/
def eventJson (chat_id role content : String) : JsonV :=
  JsonV.obj [("chat_id", JsonV.str chat_id), ("role", JsonV.str role),
    ("content", JsonV.str content)]

/-- The `WebChatChannel` state the handlers touch: the store, the SSE
subscriber registry `_sse_queues` (each queue as an identity tag plus its
pending events), and the external inbound message bus. -/
structure ChannelState where
  store : ChatStore
  sseQueues : List (Nat × List JsonV)
  bus : List (String × String)

/-- `_sse_generator`'s subscribe step: allocate a fresh queue and append
it to `_sse_queues`; the fresh tag is an input of the embedding. -/
def sse_subscribe (qs : List (Nat × List JsonV)) (fresh : Nat) :
    List (Nat × List JsonV) :=
  qs ++ [(fresh, [])]

/-- `_sse_generator`'s cleanup step `self._sse_queues.remove(q)`: Python
`list.remove` drops the first occurrence of the queue (queues compare by
identity, the tag) and raises `ValueError` when it is absent. -/
def sse_unsubscribe (qs : List (Nat × List JsonV)) (h : Nat) :
    Except String (List (Nat × List JsonV)) :=
  match qs with
  | [] => Except.error "ValueError"
  | q :: rest =>
    if q.1 = h then Except.ok rest
    else
      match sse_unsubscribe rest h with
      | Except.ok rest' => Except.ok (q :: rest')
      | Except.error e => Except.error e

/-- `WebChatChannel._notify_sse`: enqueue the serialized event to every
registered queue. -/
def notify_sse (qs : List (Nat × List JsonV)) (chat_id role content : String) :
    List (Nat × List JsonV) :=
  qs.map (fun q => (q.1, q.2 ++ [eventJson chat_id role content]))

/-- Modelled from the spec: `BaseChannel._handle_message` is not under
`src/`; per the spec it hands the submitted content off to the external
inbound-message bus for asynchronous agent processing. -/
def handle_message (bus : List (String × String)) (chat_id content : String) :
    List (String × String) :=
  bus ++ [(chat_id, content)]

/-- The `POST /api/chats/<chat_id>/messages` handler `post_message`:
blank content is a 400; otherwise append the user message and forward to
the bus; any exception (including the store's `KeyError` for an unknown
id) is caught by the blanket handler and returned as a 500 whose body is
the exception text. -/
def post_message (st : ChannelState) (chat_id : String)
    (content0 : Option String) : ChannelState × HttpResp :=
  let content := pyStrip (content0.getD "")
  if content = "" then (st, HttpResp.badRequest400 "content is required")
  else
    match append_message st.store chat_id "user" content with
    | Except.ok s' =>
      ({ st with store := s', bus := handle_message st.bus chat_id content },
        HttpResp.accepted202)
    | Except.error e => (st, HttpResp.internal500 e)

/-- The `POST /api/chats` handler: blank (or missing) title is a 400;
otherwise create the chat from the stripped title and return 201 with the
summary. The generated id and timestamp are inputs of the embedding. -/
def createChatRoute (st : ChannelState) (title0 : Option String)
    (chat_id now : String) : ChannelState × HttpResp :=
  let title := pyStrip (title0.getD "")
  if title = "" then (st, HttpResp.badRequest400 "title is required")
  else
    let (s', created) := create_chat st.store chat_id title now
    ({ st with store := s' }, HttpResp.created201 created)

/-- `WebChatChannel.send`: persist the assistant reply, then notify the
SSE listeners; a `KeyError` (unknown chat) is swallowed with a logged
warning and nothing is published. -/
def send (st : ChannelState) (chat_id content : String) : ChannelState :=
  match append_message st.store chat_id "assistant" content with
  | Except.ok s' =>
    { st with
      store := s'
      sseQueues := notify_sse st.sseQueues chat_id "assistant" content }
  | Except.error _ => st

/-- Reference-level chat record for the aliasing model: the `history`
field holds a reference into a heap of lists, mirroring Python's
in-place `chat.history.append`. -/
structure RChatRecord where
  id : String
  title : String
  created_at : String
  histRef : Nat

/-- Reference-level store: records point into a heap of message lists. -/
structure RChatStore where
  chats : List (String × RChatRecord)
  heap : List (List Msg)

/-- Heap read: dereference a history pointer. -/
def heapRead (heap : List (List Msg)) (r : Nat) : List Msg := heap.getD r []

/-- `get_messages` at reference level: `return list(chat.history)`
allocates a fresh list holding a copy of the history and returns a
reference to it (or raises `KeyError`). -/
def rget_messages (s : RChatStore) (chat_id : String) :
    Except String (RChatStore × Nat) :=
  match s.chats.lookup chat_id with
  | none => Except.error chat_id
  | some chat =>
    Except.ok ({ s with heap := s.heap ++ [heapRead s.heap chat.histRef] },
      s.heap.length)

/-- `append_message` at reference level: `chat.history.append(...)`
mutates the record's history cell in place (persistence elided here). -/
def rappend_message (s : RChatStore) (chat_id role content : String) :
    Except String RChatStore :=
  match s.chats.lookup chat_id with
  | none => Except.error chat_id
  | some chat =>
    Except.ok { s with
      heap := s.heap.set chat.histRef
        (heapRead s.heap chat.histRef ++ [⟨role, content⟩]) }

/-- A caller mutating the list returned by `get_messages`: overwrite the
heap cell it references. -/
def heapWrite (heap : List (List Msg)) (r : Nat) (v : List Msg) :
    List (List Msg) := heap.set r v

/-- `appendAll`: a sequence of `append_message` calls on one chat,
stopping at the first failure. -/
def appendAll : ChatStore → String → List Msg → Except String ChatStore
  | s, _, [] => Except.ok s
  | s, chat_id, m :: rest =>
    match append_message s chat_id m.role m.content with
    | Except.ok s' => appendAll s' chat_id rest
    | Except.error e => Except.error e

/-- `createAll`: a sequence of `create_chat` calls, with the generated
ids and timestamps supplied as a list; returns the final store and the
summaries in call order. -/
def createAll : ChatStore → List (String × String × String) → ChatStore × List Summary
  | s, [] => (s, [])
  | s, (chat_id, title, now) :: rest =>
    let p := create_chat s chat_id title now
    let q := createAll p.1 rest
    (q.1, p.2 :: q.2)

/-- A snapshot file holding the given records in the given on-disk
order; `_save` writes exactly `snapshotOf (sortedRecords s)`. -/
def snapshotOf (cs : List ChatRecord) : FileV :=
  FileV.present (some (JsonV.obj [("chats", JsonV.arr (cs.map itemJson))]))


lemma lookup_cons_self {β : Type} {v : β} {rest : List (String × β)}
    {k : String} : ((k, v) :: rest).lookup k = some v := by
  simp [List.lookup_cons]

lemma lookup_cons_ne {β : Type} {v : β} {rest : List (String × β)}
    {k k0 : String} (h : k ≠ k0) :
    ((k0, v) :: rest).lookup k = rest.lookup k := by
  have e : (k == k0) = false := beq_eq_false_iff_ne.mpr h
  simp [List.lookup_cons, e]

lemma lookup_append_of_eq_none {β : Type} {m l : List (String × β)} {k : String}
    (h : m.lookup k = none) : (m ++ l).lookup k = l.lookup k := by
  induction m with
  | nil => simp
  | cons p rest ih =>
    obtain ⟨k0, v0⟩ := p
    by_cases hk : k = k0
    · subst hk; rw [lookup_cons_self] at h; exact absurd h (by simp)
    · rw [lookup_cons_ne hk] at h
      rw [List.cons_append, lookup_cons_ne hk]
      exact ih h

lemma lookup_append_left {β : Type} {m l : List (String × β)} {k : String}
    {v : β} (h : m.lookup k = some v) :
    (m ++ l).lookup k = some v := by
  induction m with
  | nil => simp [List.lookup] at h
  | cons p rest ih =>
    obtain ⟨k0, v0⟩ := p
    by_cases hk : k = k0
    · subst hk
      rw [lookup_cons_self] at h
      rw [List.cons_append, lookup_cons_self]
      exact h
    · rw [lookup_cons_ne hk] at h
      rw [List.cons_append, lookup_cons_ne hk]
      exact ih h

lemma lookup_map_replace_self {m : List (String × ChatRecord)} {k : String}
    {v : ChatRecord} (h : (m.lookup k).isSome = true) :
    (m.map (fun p => if p.1 = k then (k, v) else p)).lookup k = some v := by
  induction m with
  | nil => simp [List.lookup] at h
  | cons p rest ih =>
    obtain ⟨k0, v0⟩ := p
    by_cases hk : k0 = k
    · subst hk
      simp only [List.map_cons, if_pos rfl]
      exact lookup_cons_self
    · rw [lookup_cons_ne (fun hc => hk hc.symm)] at h
      simp only [List.map_cons]
      rw [if_neg hk]
      rw [lookup_cons_ne (fun hc => hk hc.symm)]
      exact ih h

lemma lookup_map_replace_ne {m : List (String × ChatRecord)} {k k' : String}
    {v : ChatRecord} (h : k' ≠ k) :
    (m.map (fun p => if p.1 = k then (k, v) else p)).lookup k' = m.lookup k' := by
  induction m with
  | nil => simp
  | cons p rest ih =>
    obtain ⟨k0, v0⟩ := p
    simp only [List.map_cons]
    by_cases hk : k0 = k
    · rw [if_pos hk]
      subst hk
      rw [lookup_cons_ne h, lookup_cons_ne h]
      exact ih
    · rw [if_neg hk]
      by_cases hk' : k' = k0
      · subst hk'
        rw [lookup_cons_self, lookup_cons_self]
      · rw [lookup_cons_ne hk', lookup_cons_ne hk']
        exact ih

lemma lookup_dinsert_self {m : List (String × ChatRecord)} {k : String}
    {v : ChatRecord} : (dinsert m k v).lookup k = some v := by
  unfold dinsert
  by_cases h : (m.lookup k).isSome = true
  · rw [if_pos h]; exact lookup_map_replace_self h
  · rw [if_neg h]
    have hn : m.lookup k = none := by
      cases hm : m.lookup k with
      | none => rfl
      | some w => rw [hm] at h; exact absurd rfl h
    rw [lookup_append_of_eq_none hn, lookup_cons_self]

lemma lookup_dinsert_ne {m : List (String × ChatRecord)} {k k' : String}
    {v : ChatRecord} (h : k' ≠ k) :
    (dinsert m k v).lookup k' = m.lookup k' := by
  unfold dinsert
  by_cases hp : (m.lookup k).isSome = true
  · rw [if_pos hp]; exact lookup_map_replace_ne h
  · rw [if_neg hp]
    cases hm : m.lookup k' with
    | none => rw [lookup_append_of_eq_none hm, lookup_cons_ne h]; simp [List.lookup]
    | some w => exact lookup_append_left hm

lemma mem_of_lookup_eq_some {β : Type} {m : List (String × β)} {k : String}
    {v : β} (h : m.lookup k = some v) : (k, v) ∈ m := by
  induction m with
  | nil => simp [List.lookup] at h
  | cons p rest ih =>
    obtain ⟨k0, v0⟩ := p
    by_cases hk : k = k0
    · subst hk
      rw [lookup_cons_self] at h
      cases Option.some_inj.mp h
      exact List.mem_cons_self _ _
    · rw [lookup_cons_ne hk] at h
      exact List.mem_cons_of_mem _ (ih h)

lemma lookup_isSome_of_mem_keys {β : Type} {m : List (String × β)} {k : String}
    (h : k ∈ m.map Prod.fst) : (m.lookup k).isSome = true := by
  induction m with
  | nil => simp at h
  | cons p rest ih =>
    obtain ⟨k0, v0⟩ := p
    by_cases hk : k = k0
    · subst hk; rw [lookup_cons_self]; rfl
    · rw [lookup_cons_ne hk]
      refine ih ?_
      simp only [List.map_cons] at h
      rcases List.mem_cons.mp h with h1 | h1
      · exact absurd h1 hk
      · exact h1

lemma charsLe_total : ∀ as bs : List Char, charsLe as bs = true ∨ charsLe bs as = true
  | [], _ => Or.inl rfl
  | _ :: _, [] => Or.inr rfl
  | a :: as, b :: bs => by
    rcases lt_trichotomy a b with h | h | h
    · left; simp [charsLe, h]
    · subst h
      rcases charsLe_total as bs with h1 | h1
      · left; simp [charsLe, lt_irrefl, h1]
      · right; simp [charsLe, lt_irrefl, h1]
    · right; simp [charsLe, h]

lemma charsLe_trans : ∀ as bs cs : List Char, charsLe as bs = true →
    charsLe bs cs = true → charsLe as cs = true
  | [], _, _, _, _ => rfl
  | _ :: _, [], _, h1, _ => by simp [charsLe] at h1
  | _ :: _, _ :: _, [], _, h2 => by simp [charsLe] at h2
  | a :: as, b :: bs, c :: cs, h1, h2 => by
    simp only [charsLe] at h1 h2 ⊢
    by_cases hab : a < b
    · by_cases hbc : b < c
      · simp [lt_trans hab hbc]
      · rw [if_neg hbc] at h2
        by_cases hbc' : b = c
        · subst hbc'; simp [hab]
        · rw [if_neg hbc'] at h2; exact absurd h2 (by simp)
    · rw [if_neg hab] at h1
      by_cases hab' : a = b
      · subst hab'
        rw [if_pos rfl] at h1
        by_cases hbc : a < c
        · simp [hbc]
        · rw [if_neg hbc] at h2 ⊢
          by_cases hbc' : a = c
          · rw [if_pos hbc'] at h2 ⊢
            exact charsLe_trans as bs cs h1 h2
          · rw [if_neg hbc'] at h2; exact absurd h2 (by simp)
      · rw [if_neg hab'] at h1; exact absurd h1 (by simp)

instance : IsTotal ChatRecord createdDesc :=
  ⟨fun a b => charsLe_total b.created_at.data a.created_at.data⟩

instance : IsTrans ChatRecord createdDesc :=
  ⟨fun _ _ _ h1 h2 => charsLe_trans _ _ _ h2 h1⟩

lemma sortedRecords_perm (s : ChatStore) :
    (sortedRecords s).Perm (s.chats.map Prod.snd) :=
  List.perm_insertionSort createdDesc (s.chats.map Prod.snd)

lemma sortedRecords_sorted (s : ChatStore) :
    List.Pairwise createdDesc (sortedRecords s) :=
  List.sorted_insertionSort createdDesc (s.chats.map Prod.snd)

lemma mem_snd_dinsert {m : List (String × ChatRecord)} {k : String}
    {v : ChatRecord} : v ∈ (dinsert m k v).map Prod.snd := by
  unfold dinsert
  by_cases h : (m.lookup k).isSome = true
  · rw [if_pos h]
    cases hm : m.lookup k with
    | none => rw [hm] at h; simp at h
    | some w =>
      have hmem : (k, w) ∈ m := mem_of_lookup_eq_some hm
      have hmm : (k, v) ∈ m.map (fun p => if p.1 = k then (k, v) else p) := by
        have := List.mem_map_of_mem (fun p => if p.1 = k then (k, v) else p) hmem
        simpa using this
      simpa using List.mem_map_of_mem Prod.snd hmm
  · rw [if_neg h]
    simp

lemma chats_create_chat {s : ChatStore} {chat_id title now : String} :
    (create_chat s chat_id title now).1.chats =
      dinsert s.chats chat_id ⟨chat_id, title, now, []⟩ := rfl

/-- C8: `list_chats` returns one summary per stored thread; the output is
ordered by `created_at` descending; after a `create` the new summary
(with the given title and timestamp) is included, and — since the order
is recomputed on every call — repeated creates always observe descending
order; the summary returned by `create_chat` matches. -/
theorem c8_list_chats_sorted_summaries (s : ChatStore) (chat_id title now : String) :
    (list_chats s).Perm
      (s.chats.map (fun p => ⟨p.2.id, p.2.title, p.2.created_at⟩)) ∧
    List.Pairwise (fun a b : Summary => strLe b.created_at a.created_at = true)
      (list_chats s) ∧
    (⟨chat_id, title, now⟩ : Summary) ∈
      list_chats (create_chat s chat_id title now).1 ∧
    (create_chat s chat_id title now).2 = ⟨chat_id, title, now⟩ := by
  refine ⟨?_, ?_, ?_, rfl⟩
  · have h1 : (list_chats s).Perm
        ((s.chats.map Prod.snd).map (fun t => ⟨t.id, t.title, t.created_at⟩)) :=
      (sortedRecords_perm s).map _
    simpa [List.map_map, Function.comp] using h1
  · have h1 := sortedRecords_sorted s
    exact List.pairwise_map.mpr (h1.imp (fun h => h))
  · have hrec : (⟨chat_id, title, now, []⟩ : ChatRecord) ∈
        (create_chat s chat_id title now).1.chats.map Prod.snd := by
      rw [chats_create_chat]; exact mem_snd_dinsert
    have hsr : (⟨chat_id, title, now, []⟩ : ChatRecord) ∈
        sortedRecords (create_chat s chat_id title now).1 :=
      (sortedRecords_perm _).mem_iff.mpr hrec
    have hfin := List.mem_map_of_mem
      (fun t : ChatRecord => (⟨t.id, t.title, t.created_at⟩ : Summary)) hsr
    simpa [list_chats] using hfin

lemma append_message_eq_ok {s : ChatStore} {chat_id : String} {c : ChatRecord}
    (h : s.chats.lookup chat_id = some c) (role content : String) :
    append_message s chat_id role content =
      Except.ok (_save { s with
        chats := dinsert s.chats chat_id
          { c with history := c.history ++ [⟨role, content⟩] } }) := by
  unfold append_message
  rw [h]

lemma appendAll_ok : ∀ (msgs : List Msg) (s : ChatStore) (chat_id : String)
    (c : ChatRecord), s.chats.lookup chat_id = some c →
    ∃ s', appendAll s chat_id msgs = Except.ok s' ∧
      s'.chats.lookup chat_id = some ⟨c.id, c.title, c.created_at, c.history ++ msgs⟩
  | [], s, chat_id, c, h => by
    refine ⟨s, rfl, ?_⟩
    rw [h]
    cases c
    simp
  | m :: rest, s, chat_id, c, h => by
    have hstep : append_message s chat_id m.role m.content =
        Except.ok (_save { s with
          chats := dinsert s.chats chat_id
            { c with history := c.history ++ [m] } }) :=
      append_message_eq_ok h m.role m.content
    have h1 : (_save { s with
        chats := dinsert s.chats chat_id
          { c with history := c.history ++ [m] } }).chats.lookup chat_id =
        some { c with history := c.history ++ [m] } := lookup_dinsert_self
    obtain ⟨s', he, hl⟩ := appendAll_ok rest _ chat_id _ h1
    refine ⟨s', ?_, ?_⟩
    · show appendAll s chat_id (m :: rest) = Except.ok s'
      unfold appendAll
      rw [hstep]
      exact he
    · rw [hl]
      simp

/-- C6: for a thread id just produced by `create_chat`, any sequence of
`append_message` calls followed by `get_messages` returns exactly the
appended messages (role and content), in append order, with no
reordering, loss, duplication, or mutation. -/
theorem c6_append_then_get_exact (s : ChatStore) (chat_id title now : String)
    (msgs : List Msg) :
    ∃ s2, appendAll (create_chat s chat_id title now).1 chat_id msgs =
        Except.ok s2 ∧
      get_messages s2 chat_id = Except.ok msgs := by
  have h0 : (create_chat s chat_id title now).1.chats.lookup chat_id =
      some ⟨chat_id, title, now, []⟩ := by
    rw [chats_create_chat]
    exact lookup_dinsert_self
  obtain ⟨s2, he, hl⟩ := appendAll_ok msgs _ chat_id _ h0
  refine ⟨s2, he, ?_⟩
  unfold get_messages
  rw [hl]
  simp

lemma createAll_cons {s : ChatStore} {chat_id title now : String}
    {rest : List (String × String × String)} :
    createAll s ((chat_id, title, now) :: rest) =
      ((createAll (create_chat s chat_id title now).1 rest).1,
        (create_chat s chat_id title now).2 ::
          (createAll (create_chat s chat_id title now).1 rest).2) := rfl

lemma createAll_spec : ∀ (inputs : List (String × String × String)) (s : ChatStore),
    (inputs.map Prod.fst).Nodup →
    (∀ id ∈ inputs.map Prod.fst, s.chats.lookup id = none) →
    ((createAll s inputs).2.map Summary.id = inputs.map Prod.fst) ∧
    (∀ k c, s.chats.lookup k = some c →
      (createAll s inputs).1.chats.lookup k = some c) ∧
    (∀ e ∈ inputs, (createAll s inputs).1.chats.lookup e.1 =
      some ⟨e.1, e.2.1, e.2.2, []⟩)
  | [], s, _, _ => ⟨rfl, fun _ _ h => h, by simp⟩
  | (cid, t, n) :: rest, s, hnd, hfresh => by
    have hfresh0 : s.chats.lookup cid = none := hfresh cid (by simp)
    have hcid_notin : cid ∉ rest.map Prod.fst := (List.nodup_cons.mp (by simpa using hnd)).1
    have hnd' : (rest.map Prod.fst).Nodup := (List.nodup_cons.mp (by simpa using hnd)).2
    have hs1chats : (create_chat s cid t n).1.chats =
        dinsert s.chats cid ⟨cid, t, n, []⟩ := chats_create_chat
    have hfresh' : ∀ id ∈ rest.map Prod.fst,
        (create_chat s cid t n).1.chats.lookup id = none := by
      intro id hid
      have hne : id ≠ cid := fun he => hcid_notin (he ▸ hid)
      rw [hs1chats, lookup_dinsert_ne hne]
      exact hfresh id (by simp [hid])
    obtain ⟨ih1, ih2, ih3⟩ := createAll_spec rest (create_chat s cid t n).1 hnd' hfresh'
    refine ⟨?_, ?_, ?_⟩
    · rw [createAll_cons]
      simp only [List.map_cons]
      rw [ih1]
      rfl
    · intro k c hk
      have hne : k ≠ cid := by
        intro he
        rw [he, hfresh0] at hk
        exact Option.noConfusion hk
      have hk1 : (create_chat s cid t n).1.chats.lookup k = some c := by
        rw [hs1chats, lookup_dinsert_ne hne]
        exact hk
      rw [createAll_cons]
      exact ih2 k c hk1
    · intro e he
      rcases List.mem_cons.mp he with he1 | he1
      · subst he1
        have hcid : (create_chat s cid t n).1.chats.lookup cid =
            some ⟨cid, t, n, []⟩ := by
          rw [hs1chats]
          exact lookup_dinsert_self
        rw [createAll_cons]
        exact ih2 cid _ hcid
      · rw [createAll_cons]
        exact ih3 e he1

/-- C7: when the environment-supplied generated ids are pairwise distinct
and absent from the store (the `uuid4` uniqueness contract), a sequence
of `create_chat` calls returns pairwise-distinct ids, overwrites no
existing record, and each created record remains present under its id. -/
theorem c7_create_ids_unique (s : ChatStore)
    (inputs : List (String × String × String))
    (hnd : (inputs.map Prod.fst).Nodup)
    (hfresh : ∀ id ∈ inputs.map Prod.fst, s.chats.lookup id = none) :
    ((createAll s inputs).2.map Summary.id = inputs.map Prod.fst) ∧
    ((createAll s inputs).2.map Summary.id).Nodup ∧
    (∀ k c, s.chats.lookup k = some c →
      (createAll s inputs).1.chats.lookup k = some c) ∧
    (∀ e ∈ inputs, (createAll s inputs).1.chats.lookup e.1 =
      some ⟨e.1, e.2.1, e.2.2, []⟩) := by
  obtain ⟨h1, h2, h3⟩ := createAll_spec inputs s hnd hfresh
  exact ⟨h1, h1 ▸ hnd, h2, h3⟩

theorem c7_create_ids_unique_witness :
    ((createAll ⟨[], FileV.absent⟩ [("a", "t1", "n1"), ("b", "t2", "n2")]).2.map
      Summary.id = ["a", "b"]) ∧
    ((createAll ⟨[], FileV.absent⟩ [("a", "t1", "n1"), ("b", "t2", "n2")]).1.chats.lookup
      "a" = some ⟨"a", "t1", "n1", []⟩) := by
  have h := c7_create_ids_unique ⟨[], FileV.absent⟩
    [("a", "t1", "n1"), ("b", "t2", "n2")] (by decide) (by intro id _; rfl)
  exact ⟨h.1, h.2.2.2 ("a", "t1", "n1") (by simp)⟩

lemma sse_unsubscribe_absent : ∀ (qs : List (Nat × List JsonV)) (h : Nat),
    h ∉ qs.map Prod.fst → sse_unsubscribe qs h = Except.error "ValueError"
  | [], _, _ => rfl
  | q :: rest, h, hab => by
    have hne : q.1 ≠ h := by
      intro he
      exact hab (by simp [← he])
    have hrest : h ∉ rest.map Prod.fst := by
      intro hm
      exact hab (by simp [hm])
    unfold sse_unsubscribe
    rw [if_neg hne, sse_unsubscribe_absent rest h hrest]

lemma sse_unsubscribe_found : ∀ (l : List (Nat × List JsonV))
    (q : Nat × List JsonV) (r : List (Nat × List JsonV)) (h : Nat),
    q.1 = h → h ∉ l.map Prod.fst →
    sse_unsubscribe (l ++ q :: r) h = Except.ok (l ++ r)
  | [], q, r, h, hq, _ => by
    unfold sse_unsubscribe
    simp only [List.nil_append]
    rw [if_pos hq]
  | p :: l', q, r, h, hq, hab => by
    have hne : p.1 ≠ h := by
      intro he
      exact hab (by simp [← he])
    have hl' : h ∉ l'.map Prod.fst := by
      intro hm
      exact hab (by simp [hm])
    show sse_unsubscribe (p :: (l' ++ q :: r)) h = Except.ok (p :: (l' ++ r))
    unfold sse_unsubscribe
    rw [if_neg hne, sse_unsubscribe_found l' q r h hq hl']

/-- C4 counterexample: calling the cleanup step with a handle that is not
registered is not a no-op — `list.remove` raises `ValueError` on an
absent element, contradicting the claimed no-op-on-absence behavior. -/
theorem c4_counterexample :
    sse_unsubscribe [] 0 = Except.error "ValueError" ∧
    sse_unsubscribe [] 0 ≠ Except.ok [] :=
  ⟨rfl, fun h => Except.noConfusion h⟩

/-- C4 (amended): `unsubscribe` removes the first occurrence of the
handle's queue from the registry when it is present; when the handle is
absent it raises `ValueError` (in the source every unsubscribe follows a
matching subscribe on the same generator, so absence does not occur on
its exit paths). -/
theorem c4_unsubscribe_amended (qs : List (Nat × List JsonV)) (h : Nat) :
    (h ∉ qs.map Prod.fst → sse_unsubscribe qs h = Except.error "ValueError") ∧
    (∀ l q r, qs = l ++ q :: r → q.1 = h → h ∉ l.map Prod.fst →
      sse_unsubscribe qs h = Except.ok (l ++ r)) := by
  refine ⟨sse_unsubscribe_absent qs h, ?_⟩
  intro l q r hqs hq hab
  rw [hqs]
  exact sse_unsubscribe_found l q r h hq hab

theorem c4_unsubscribe_amended_witness :
    sse_unsubscribe [(1, []), (2, [])] 2 = Except.ok [(1, [])] ∧
    sse_unsubscribe [(1, [])] 7 = Except.error "ValueError" :=
  ⟨(c4_unsubscribe_amended [(1, []), (2, [])] 2).2 [(1, [])] (2, []) [] rfl rfl
      (by decide),
    (c4_unsubscribe_amended [(1, [])] 7).1 (by decide)⟩

/-- C9: the create route rejects an empty or all-whitespace title with a
400 and changes nothing; for a non-blank title it inserts a record with
the stripped title, the supplied fresh id and timestamp, and an empty
history, persists the snapshot, and returns 201 with the summary. -/
theorem c9_create_route_validation (st : ChannelState) (title0 : Option String)
    (chat_id now : String) :
    (pyStrip (title0.getD "") = "" →
      createChatRoute st title0 chat_id now =
        (st, HttpResp.badRequest400 "title is required")) ∧
    (pyStrip (title0.getD "") ≠ "" →
      (createChatRoute st title0 chat_id now).2 =
        HttpResp.created201 ⟨chat_id, pyStrip (title0.getD ""), now⟩ ∧
      (createChatRoute st title0 chat_id now).1.store.chats =
        dinsert st.store.chats chat_id
          ⟨chat_id, pyStrip (title0.getD ""), now, []⟩ ∧
      (createChatRoute st title0 chat_id now).1.store.chats.lookup chat_id =
        some ⟨chat_id, pyStrip (title0.getD ""), now, []⟩ ∧
      (createChatRoute st title0 chat_id now).1.store.disk =
        FileV.present
          (some (snapshotJson (createChatRoute st title0 chat_id now).1.store)) ∧
      (createChatRoute st title0 chat_id now).1.sseQueues = st.sseQueues ∧
      (createChatRoute st title0 chat_id now).1.bus = st.bus) := by
  constructor
  · intro h
    simp [createChatRoute, h]
  · intro h
    have hroute : createChatRoute st title0 chat_id now =
        ({ st with store := (create_chat st.store chat_id
            (pyStrip (title0.getD "")) now).1 },
          HttpResp.created201 (create_chat st.store chat_id
            (pyStrip (title0.getD "")) now).2) := by
      unfold createChatRoute
      simp only [if_neg h]
    rw [hroute]
    refine ⟨rfl, rfl, ?_, rfl, rfl, rfl⟩
    rw [chats_create_chat]
    exact lookup_dinsert_self

theorem c9_create_route_validation_witness :
    createChatRoute ⟨⟨[], FileV.absent⟩, [], []⟩ (some "   ") "x" "n" =
      (⟨⟨[], FileV.absent⟩, [], []⟩, HttpResp.badRequest400 "title is required") ∧
    (createChatRoute ⟨⟨[], FileV.absent⟩, [], []⟩ (some " hi ") "x" "n").2 =
      HttpResp.created201 ⟨"x", "hi", "n"⟩ ∧
    (createChatRoute ⟨⟨[], FileV.absent⟩, [], []⟩
      (some " hi ") "x" "n").1.store.chats.lookup "x" =
      some ⟨"x", "hi", "n", []⟩ :=
  ⟨(c9_create_route_validation ⟨⟨[], FileV.absent⟩, [], []⟩ (some "   ") "x" "n").1
      (by decide),
    ((c9_create_route_validation ⟨⟨[], FileV.absent⟩, [], []⟩ (some " hi ") "x" "n").2
      (by decide)).1,
    ((c9_create_route_validation ⟨⟨[], FileV.absent⟩, [], []⟩ (some " hi ") "x" "n").2
      (by decide)).2.2.1⟩

lemma append_message_eq_error {s : ChatStore} {chat_id : String}
    (h : s.chats.lookup chat_id = none) (role content : String) :
    append_message s chat_id role content = Except.error chat_id := by
  unfold append_message
  rw [h]

/-- C1 counterexample: submitting to an unknown thread id yields a 500
internal-error response (the store's `KeyError` is caught by the blanket
handler), not the 404 `NotFound` the claim states. -/
theorem c1_counterexample :
    post_message ⟨⟨[], FileV.absent⟩, [], []⟩ "nope" (some "hi") =
      (⟨⟨[], FileV.absent⟩, [], []⟩, HttpResp.internal500 "nope") ∧
    HttpResp.internal500 "nope" ≠ HttpResp.notFound404 "nope" :=
  ⟨rfl, fun h => HttpResp.noConfusion h⟩

/-- C1 (amended): submitting non-blank content to an unknown thread id
fails with the blanket 500 internal-error response carrying the
`KeyError` payload (not a 404); the channel state — in-memory store,
persisted snapshot, SSE subscriber queues, and bus — is left entirely
unchanged, so nothing is persisted or published. -/
theorem c1_unknown_id_500 (st : ChannelState) (chat_id : String)
    (content0 : Option String)
    (hfresh : st.store.chats.lookup chat_id = none)
    (hnb : pyStrip (content0.getD "") ≠ "") :
    post_message st chat_id content0 = (st, HttpResp.internal500 chat_id) := by
  have happ := append_message_eq_error hfresh "user" (pyStrip (content0.getD ""))
  unfold post_message
  rw [if_neg hnb, happ]

theorem c1_unknown_id_500_witness :
    post_message ⟨⟨[("a", ⟨"a", "T", "t", []⟩)], FileV.absent⟩, [(0, [])], []⟩
        "x" (some "hi") =
      (⟨⟨[("a", ⟨"a", "T", "t", []⟩)], FileV.absent⟩, [(0, [])], []⟩,
        HttpResp.internal500 "x") :=
  c1_unknown_id_500 _ "x" (some "hi") (by decide) (by decide)

/-- C2: `send` first appends the assistant reply to the store (which
rewrites the persisted snapshot) and only then publishes: every
subscriber queue receives exactly one new event, appended at the tail,
and the corresponding message is already in the store and in the
persisted snapshot rendered at publish time; when the append fails with
`KeyError` (unknown thread), nothing at all is published or changed. -/
theorem c2_send_persists_before_publish (st : ChannelState)
    (chat_id content : String) :
    (st.store.chats.lookup chat_id = none → send st chat_id content = st) ∧
    (∀ c, st.store.chats.lookup chat_id = some c →
      (send st chat_id content).sseQueues =
        st.sseQueues.map
          (fun q => (q.1, q.2 ++ [eventJson chat_id "assistant" content])) ∧
      (send st chat_id content).store.chats.lookup chat_id =
        some { c with history := c.history ++ [⟨"assistant", content⟩] } ∧
      (send st chat_id content).store.disk =
        FileV.present (some (snapshotJson (send st chat_id content).store)) ∧
      { c with history := c.history ++ [⟨"assistant", content⟩] } ∈
        sortedRecords (send st chat_id content).store ∧
      (send st chat_id content).bus = st.bus) := by
  constructor
  · intro h
    unfold send
    rw [append_message_eq_error h]
  · intro c hc
    have hsend : send st chat_id content =
        { st with
          store := _save { st.store with
            chats := dinsert st.store.chats chat_id
              { c with history := c.history ++ [⟨"assistant", content⟩] } }
          sseQueues := notify_sse st.sseQueues chat_id "assistant" content } := by
      unfold send
      rw [append_message_eq_ok hc]
    rw [hsend]
    refine ⟨rfl, lookup_dinsert_self, rfl, ?_, rfl⟩
    exact (sortedRecords_perm _).mem_iff.mpr mem_snd_dinsert

theorem c2_send_persists_before_publish_witness :
    (send ⟨⟨[("a", ⟨"a", "T", "t", []⟩)], FileV.absent⟩, [(0, [])], []⟩
        "a" "hello").sseQueues =
      [(0, [eventJson "a" "assistant" "hello"])] ∧
    (send ⟨⟨[("a", ⟨"a", "T", "t", []⟩)], FileV.absent⟩, [(0, [])], []⟩
        "a" "hello").store.chats.lookup "a" =
      some ⟨"a", "T", "t", [⟨"assistant", "hello"⟩]⟩ :=
  ⟨((c2_send_persists_before_publish
      ⟨⟨[("a", ⟨"a", "T", "t", []⟩)], FileV.absent⟩, [(0, [])], []⟩
      "a" "hello").2 ⟨"a", "T", "t", []⟩ (by decide)).1,
    ((c2_send_persists_before_publish
      ⟨⟨[("a", ⟨"a", "T", "t", []⟩)], FileV.absent⟩, [(0, [])], []⟩
      "a" "hello").2 ⟨"a", "T", "t", []⟩ (by decide)).2.1⟩

lemma parseMsg_msgJson (m : Msg) : parseMsg (msgJson m) = some m := rfl

lemma mapM_parseMsg_map : ∀ l : List Msg, (l.map msgJson).mapM parseMsg = some l
  | [] => rfl
  | m :: rest => by
    rw [List.map_cons, List.mapM_cons, parseMsg_msgJson, mapM_parseMsg_map rest]
    rfl

lemma parseItem_itemJson (c : ChatRecord) : parseItem (itemJson c) = some c := by
  have h : parseMsgs (JsonV.arr (c.history.map msgJson)) = some c.history :=
    mapM_parseMsg_map c.history
  show (match parseMsgs (JsonV.arr (c.history.map msgJson)) with
    | some ms => some (⟨c.id, c.title, c.created_at, ms⟩ : ChatRecord)
    | none => none) = some c
  rw [h]

lemma loadLoop_all_good : ∀ (cs : List ChatRecord)
    (acc : List (String × ChatRecord)),
    loadLoop (cs.map itemJson) acc =
      (cs.foldl (fun m c => dinsert m c.id c) acc, false)
  | [], _ => rfl
  | c :: rest, acc => by
    show loadLoop (itemJson c :: rest.map itemJson) acc = _
    unfold loadLoop
    rw [parseItem_itemJson]
    exact loadLoop_all_good rest (dinsert acc c.id c)

lemma loadStore_snapshotOf (cs : List ChatRecord) :
    loadStore (snapshotOf cs) =
      (⟨cs.foldl (fun m c => dinsert m c.id c) [], snapshotOf cs⟩, false) := by
  show (match chatsItems ((jlook [("chats", JsonV.arr (cs.map itemJson))]
        "chats").getD (JsonV.arr [])) with
    | some items =>
      let p := loadLoop items []
      ((⟨p.1, snapshotOf cs⟩ : ChatStore), p.2)
    | none => ((⟨[], snapshotOf cs⟩ : ChatStore), true)) = _
  have h1 : chatsItems ((jlook [("chats", JsonV.arr (cs.map itemJson))]
      "chats").getD (JsonV.arr [])) = some (cs.map itemJson) := rfl
  rw [h1]
  show (let p := loadLoop (cs.map itemJson) []
    ((⟨p.1, snapshotOf cs⟩ : ChatStore), p.2)) = _
  rw [loadLoop_all_good cs []]

lemma lookup_foldl_dinsert_not_mem : ∀ (cs : List ChatRecord)
    (acc : List (String × ChatRecord)) (k : String),
    k ∉ cs.map ChatRecord.id →
    (cs.foldl (fun m c => dinsert m c.id c) acc).lookup k = acc.lookup k
  | [], _, _, _ => rfl
  | c :: rest, acc, k, h => by
    have hne : k ≠ c.id := fun he => h (by simp [he])
    have hrest : k ∉ rest.map ChatRecord.id := fun hm => h (by simp [hm])
    show (rest.foldl (fun m c => dinsert m c.id c) (dinsert acc c.id c)).lookup k =
      acc.lookup k
    rw [lookup_foldl_dinsert_not_mem rest (dinsert acc c.id c) k hrest]
    exact lookup_dinsert_ne hne

lemma lookup_foldl_dinsert_mem : ∀ (cs : List ChatRecord)
    (acc : List (String × ChatRecord)) (c : ChatRecord),
    (cs.map ChatRecord.id).Nodup → c ∈ cs →
    (cs.foldl (fun m c => dinsert m c.id c) acc).lookup c.id = some c
  | [], _, _, _, hmem => by simp at hmem
  | c0 :: rest, acc, c, hnd, hmem => by
    have hnotin : c0.id ∉ rest.map ChatRecord.id :=
      (List.nodup_cons.mp (by simpa using hnd)).1
    have hnd' : (rest.map ChatRecord.id).Nodup :=
      (List.nodup_cons.mp (by simpa using hnd)).2
    show (rest.foldl (fun m c => dinsert m c.id c) (dinsert acc c0.id c0)).lookup c.id =
      some c
    rcases List.mem_cons.mp hmem with h1 | h1
    · subst h1
      rw [lookup_foldl_dinsert_not_mem rest _ c.id hnotin]
      exact lookup_dinsert_self
    · exact lookup_foldl_dinsert_mem rest (dinsert acc c0.id c0) c hnd' h1

/-- C5: persisting the store and reloading the snapshot into a fresh
store reconstructs an equivalent set of threads — every id resolves to
the same record (same title, created_at and history) — irrespective of
the ordering of the items in the on-disk file (any permutation of the
saved records loads to the same thread set), with no load failure
logged; `_save` writes exactly the `snapshotOf` payload of the
newest-first record list. -/
theorem c5_snapshot_roundtrip (s : ChatStore) (cs : List ChatRecord)
    (hwf : ∀ p ∈ s.chats, p.2.id = p.1)
    (hnd : (s.chats.map Prod.fst).Nodup)
    (hperm : cs.Perm (sortedRecords s)) :
    (loadStore (snapshotOf cs)).2 = false ∧
    (∀ k, (loadStore (snapshotOf cs)).1.chats.lookup k = s.chats.lookup k) ∧
    (_save s).disk = snapshotOf (sortedRecords s) := by
  have hperm2 : cs.Perm (s.chats.map Prod.snd) :=
    hperm.trans (sortedRecords_perm s)
  have hids : (s.chats.map Prod.snd).map ChatRecord.id = s.chats.map Prod.fst := by
    rw [List.map_map]
    exact List.map_congr_left (fun p hp => hwf p hp)
  have hnd_cs : (cs.map ChatRecord.id).Nodup := by
    refine ((hperm2.map ChatRecord.id).nodup_iff).mpr ?_
    rw [hids]
    exact hnd
  rw [loadStore_snapshotOf cs]
  refine ⟨rfl, ?_, rfl⟩
  intro k
  cases hk : s.chats.lookup k with
  | some c =>
    have hmemp : (k, c) ∈ s.chats := mem_of_lookup_eq_some hk
    have hcid : c.id = k := hwf (k, c) hmemp
    have hmem : c ∈ cs := hperm2.mem_iff.mpr (List.mem_map_of_mem Prod.snd hmemp)
    have := lookup_foldl_dinsert_mem cs [] c hnd_cs hmem
    rw [hcid] at this
    exact this
  | none =>
    have hnkeys : k ∉ s.chats.map Prod.fst := by
      intro hmem
      have := lookup_isSome_of_mem_keys hmem
      rw [hk] at this
      simp at this
    have hnids : k ∉ cs.map ChatRecord.id := by
      intro hmem
      have hmem2 : k ∈ (s.chats.map Prod.snd).map ChatRecord.id :=
        ((hperm2.map ChatRecord.id).mem_iff).mp hmem
      rw [hids] at hmem2
      exact hnkeys hmem2
    rw [lookup_foldl_dinsert_not_mem cs [] k hnids]
    rfl

theorem c5_snapshot_roundtrip_witness :
    (loadStore (snapshotOf [⟨"a", "Ta", "2020", [⟨"user", "hi"⟩]⟩,
      ⟨"b", "Tb", "2021", []⟩])).2 = false ∧
    (loadStore (snapshotOf [⟨"a", "Ta", "2020", [⟨"user", "hi"⟩]⟩,
      ⟨"b", "Tb", "2021", []⟩])).1.chats.lookup "a" =
      some ⟨"a", "Ta", "2020", [⟨"user", "hi"⟩]⟩ ∧
    (loadStore (snapshotOf [⟨"a", "Ta", "2020", [⟨"user", "hi"⟩]⟩,
      ⟨"b", "Tb", "2021", []⟩])).1.chats.lookup "b" =
      some ⟨"b", "Tb", "2021", []⟩ := by
  have h := c5_snapshot_roundtrip
    ⟨[("a", ⟨"a", "Ta", "2020", [⟨"user", "hi"⟩]⟩),
      ("b", ⟨"b", "Tb", "2021", []⟩)], FileV.absent⟩
    [⟨"a", "Ta", "2020", [⟨"user", "hi"⟩]⟩, ⟨"b", "Tb", "2021", []⟩]
    (by decide) (by decide) (by decide)
  exact ⟨h.1, (h.2.1 "a").trans (by decide), (h.2.1 "b").trans (by decide)⟩

lemma loadLoopRaw_prefix : ∀ (pre : List JsonV) (cs : List RawChatRecord)
    (bad : JsonV) (rest : List JsonV) (acc : List (String × RawChatRecord)),
    pre.mapM parseItemRaw = some cs → parseItemRaw bad = none →
    loadLoopRaw (pre ++ bad :: rest) acc =
      (cs.foldl (fun m c => dinsertRaw m c.id c) acc, true)
  | [], cs, bad, rest, acc, hpre, hbad => by
    have hcs : cs = [] := by
      rw [List.mapM_nil] at hpre
      exact (Option.some_inj.mp hpre).symm
    subst hcs
    show loadLoopRaw (bad :: rest) acc = (acc, true)
    unfold loadLoopRaw
    rw [hbad]
  | i :: pre', cs, bad, rest, acc, hpre, hbad => by
    rw [List.mapM_cons] at hpre
    cases hi : parseItemRaw i with
    | none => rw [hi] at hpre; exact absurd hpre (by simp)
    | some c =>
      rw [hi] at hpre
      cases hpre' : pre'.mapM parseItemRaw with
      | none => rw [hpre'] at hpre; exact absurd hpre (by simp)
      | some cs' =>
        rw [hpre'] at hpre
        have hcs : cs = c :: cs' := by
          simp only [Option.bind_eq_bind, Option.some_bind] at hpre
          exact (Option.some_inj.mp hpre).symm
        subst hcs
        show loadLoopRaw (i :: (pre' ++ bad :: rest)) acc = _
        unfold loadLoopRaw
        rw [hi]
        exact loadLoopRaw_prefix pre' cs' bad rest (dinsertRaw acc c.id c) hpre' hbad

/-- C3 counterexample: a malformed snapshot file whose second item lacks
the required keys loads without error propagation and with the failure
logged, but the store is NOT empty — it keeps the record inserted before
the raising item, contradicting the claimed empty start. -/
theorem c3_counterexample :
    (loadStoreRaw (FileV.present (some (JsonV.obj [("chats",
      JsonV.arr [itemJson ⟨"g", "T", "2020", []⟩, JsonV.obj []])])))).2 = true ∧
    (loadStoreRaw (FileV.present (some (JsonV.obj [("chats",
      JsonV.arr [itemJson ⟨"g", "T", "2020", []⟩, JsonV.obj []])])))).1 =
      [("g", ⟨"g", JsonV.str "T", JsonV.str "2020", JsonV.arr []⟩)] ∧
    (loadStoreRaw (FileV.present (some (JsonV.obj [("chats",
      JsonV.arr [itemJson ⟨"g", "T", "2020", []⟩, JsonV.obj []])])))).1 ≠ [] :=
  ⟨rfl, rfl, fun h => List.noConfusion h⟩

/-- C3 (amended): a malformed snapshot never propagates an error — the
failure is caught and logged — and the store starts empty when the file
is unparseable text or its root is not a JSON object. An item inside
`"chats"` makes the loop raise only when it is not an object, lacks one
of the `id`/`title`/`created_at` keys, or has a non-string (unhashable)
id; field values are never type-checked, so items with, e.g., a
non-string title are inserted as-is and the loop continues. At the first
raising item the loop aborts, keeping exactly the records inserted so
far rather than starting empty. -/
theorem c3_malformed_load_logged :
    (loadStoreRaw (FileV.present none) = ([], true)) ∧
    (∀ s0, loadStoreRaw (FileV.present (some (JsonV.str s0))) = ([], true)) ∧
    (∀ l, loadStoreRaw (FileV.present (some (JsonV.arr l))) = ([], true)) ∧
    (∀ (fields : List (String × JsonV)) (pre : List JsonV)
      (cs : List RawChatRecord) (bad : JsonV) (rest : List JsonV),
      chatsItems ((jlook fields "chats").getD (JsonV.arr [])) =
        some (pre ++ bad :: rest) →
      pre.mapM parseItemRaw = some cs →
      parseItemRaw bad = none →
      loadStoreRaw (FileV.present (some (JsonV.obj fields))) =
        (cs.foldl (fun m c => dinsertRaw m c.id c) [], true)) := by
  refine ⟨rfl, fun _ => rfl, fun _ => rfl, ?_⟩
  intro fields pre cs bad rest hchats hpre hbad
  show (match chatsItems ((jlook fields "chats").getD (JsonV.arr [])) with
    | some items => loadLoopRaw items []
    | none => ([], true)) = _
  rw [hchats]
  exact loadLoopRaw_prefix pre cs bad rest [] hpre hbad

theorem c3_malformed_load_logged_witness :
    loadStoreRaw (FileV.present (some (JsonV.obj [("chats", JsonV.arr
      [itemJson ⟨"g", "T", "2020", []⟩,
        JsonV.obj [("id", JsonV.str "h"), ("title", JsonV.arr []),
          ("created_at", JsonV.str "2021")],
        JsonV.obj []])]))) =
      ([("g", ⟨"g", JsonV.str "T", JsonV.str "2020", JsonV.arr []⟩),
        ("h", ⟨"h", JsonV.arr [], JsonV.str "2021", JsonV.arr []⟩)], true) :=
  c3_malformed_load_logged.2.2.2
    [("chats", JsonV.arr [itemJson ⟨"g", "T", "2020", []⟩,
      JsonV.obj [("id", JsonV.str "h"), ("title", JsonV.arr []),
        ("created_at", JsonV.str "2021")],
      JsonV.obj []])]
    [itemJson ⟨"g", "T", "2020", []⟩,
      JsonV.obj [("id", JsonV.str "h"), ("title", JsonV.arr []),
        ("created_at", JsonV.str "2021")]]
    [⟨"g", JsonV.str "T", JsonV.str "2020", JsonV.arr []⟩,
      ⟨"h", JsonV.arr [], JsonV.str "2021", JsonV.arr []⟩]
    (JsonV.obj []) [] rfl rfl rfl

lemma heapRead_concat_length {heap : List (List Msg)} {v : List Msg} :
    heapRead (heap ++ [v]) heap.length = v := by
  simp [heapRead, List.getD]

lemma heapRead_append_lt {heap : List (List Msg)} {v : List Msg} {r : Nat}
    (h : r < heap.length) : heapRead (heap ++ [v]) r = heapRead heap r := by
  simp [heapRead, List.getD, List.getElem?_append_left h]

lemma heapRead_set_ne {heap : List (List Msg)} {v : List Msg} {r r' : Nat}
    (h : r ≠ r') : heapRead (heap.set r v) r' = heapRead heap r' := by
  simp [heapRead, List.getD, List.getElem?_set_ne h]

/-- C10: `get_messages` returns `list(chat.history)` — a fresh copy. In
the reference-level model: the returned reference is freshly allocated
and holds the history's contents; overwriting it (the caller mutating
the returned list) leaves every stored thread's history unchanged; and a
subsequent `append_message` (which mutates the record's own cell in
place) leaves the previously returned copy unchanged. -/
theorem c10_get_messages_returns_copy (s : RChatStore) (chat_id : String)
    (chat : RChatRecord)
    (hwf : ∀ p ∈ s.chats, p.2.histRef < s.heap.length)
    (hc : s.chats.lookup chat_id = some chat) :
    rget_messages s chat_id =
      Except.ok ({ s with heap := s.heap ++ [heapRead s.heap chat.histRef] },
        s.heap.length) ∧
    heapRead (s.heap ++ [heapRead s.heap chat.histRef]) s.heap.length =
      heapRead s.heap chat.histRef ∧
    (∀ (v : List Msg), ∀ p ∈ s.chats,
      heapRead (heapWrite (s.heap ++ [heapRead s.heap chat.histRef])
        s.heap.length v) p.2.histRef = heapRead s.heap p.2.histRef) ∧
    (∀ role content,
      rappend_message { s with
          heap := s.heap ++ [heapRead s.heap chat.histRef] } chat_id role content =
        Except.ok { s with
          heap := (s.heap ++ [heapRead s.heap chat.histRef]).set chat.histRef
            (heapRead (s.heap ++ [heapRead s.heap chat.histRef]) chat.histRef ++
              [⟨role, content⟩]) } ∧
      ∀ role content,
        heapRead ((s.heap ++ [heapRead s.heap chat.histRef]).set chat.histRef
          (heapRead (s.heap ++ [heapRead s.heap chat.histRef]) chat.histRef ++
            [⟨role, content⟩])) s.heap.length =
        heapRead s.heap chat.histRef) := by
  have hlt : chat.histRef < s.heap.length :=
    hwf (chat_id, chat) (mem_of_lookup_eq_some hc)
  refine ⟨?_, heapRead_concat_length, ?_, ?_⟩
  · unfold rget_messages
    rw [hc]
  · intro v p hp
    have hplt : p.2.histRef < s.heap.length := hwf p hp
    have hne : s.heap.length ≠ p.2.histRef := fun he => by
      rw [← he] at hplt
      exact lt_irrefl _ hplt
    unfold heapWrite
    rw [heapRead_set_ne hne, heapRead_append_lt hplt]
  · intro role content
    constructor
    · unfold rappend_message
      rw [hc]
    · intro role' content'
      have hne : chat.histRef ≠ s.heap.length := Nat.ne_of_lt hlt
      rw [heapRead_set_ne hne, heapRead_concat_length]

theorem c10_get_messages_returns_copy_witness :
    rget_messages ⟨[("a", ⟨"a", "T", "t", 0⟩)], [[⟨"user", "hi"⟩]]⟩ "a" =
      Except.ok (⟨[("a", ⟨"a", "T", "t", 0⟩)],
        [[⟨"user", "hi"⟩], [⟨"user", "hi"⟩]]⟩, 1) ∧
    heapRead (heapWrite [[⟨"user", "hi"⟩], [⟨"user", "hi"⟩]] 1 []) 0 =
      [⟨"user", "hi"⟩] := by
  have h := c10_get_messages_returns_copy
    ⟨[("a", ⟨"a", "T", "t", 0⟩)], [[⟨"user", "hi"⟩]]⟩ "a" ⟨"a", "T", "t", 0⟩
    (by decide) rfl
  exact ⟨h.1, h.2.2.1 [] ("a", ⟨"a", "T", "t", 0⟩) (by simp)⟩
